import Mathlib

/-!
Shallow embedding of the `consul` package of mesos-consul: the mark-and-sweep
registration cache, the agent connection pool and the nginx-upstream key/value
bookkeeping of `consul/consul.go`.

Remote effects (catalog registration/deregistration, KV CAS/Delete) are modelled
by an oracle `World`; each remote call additionally emits an `Event` so that
theorems can speak about which calls a run performs.  A Go `nil`
`*consulapi.Client` is modelled as `none : Option Unit`; dereferencing a nil
client, or indexing past the end of a slice, surfaces as the panic constructor
of the relevant result type, and a panic aborts the whole sweep (`Option` at the
`Deregister` level).  The cache file of the package (the type behind
`serviceCache`, `newCacheEntry`, `CacheMark`, `CacheIsValid`,
`CacheProcessDeregister`) is not among the sources; those definitions are
modelled from the specification and say so in their doc comments.
-/

/-- Health-check descriptor carried by a service (TTL / script / HTTP / interval),
the fields `Register` copies into the catalog payload. -/
structure ServiceCheck where
  ttl : String
  script : String
  http : String
  interval : String
deriving Repr, DecidableEq

/-- `registry.Service`: the desired state handed to `Register`. -/
structure Service where
  id : String
  name : String
  agent : String
  port : Int
  address : String
  tags : List String
  check : ServiceCheck
deriving Repr, DecidableEq

/-- `consulapi.AgentServiceRegistration`, restricted to the fields the code sets. -/
structure AgentServiceRegistration where
  id : String
  name : String
  port : Int
  address : String
  tags : List String
  check : ServiceCheck
deriving Repr, DecidableEq

/-- Modelled from the spec: the repository's cache file (the entry type stored in
`serviceCache`) is not among the sources.  Per the data model a cache entry owns
the registration payload actually sent to the catalog, the agent address used,
and a liveness mark. -/
structure CacheEntry where
  service : AgentServiceRegistration
  agent : String
  marked : Bool
deriving Repr, DecidableEq

/-- `c.agents`: map from agent address to the stored `*consulapi.Client`.
`none` is a stored nil pointer. -/
abbrev Pool := List (String × Option Unit)

/-- `serviceCache`: map from service identifier to cache entry. -/
abbrev Cache := List (String × CacheEntry)

/-- Map lookup in the agent pool (`c.agents[address]` together with its `ok` bit:
`none` = key absent, `some c` = key present with stored client `c`). -/
def poolFind : Pool → String → Option (Option Unit)
  | [], _ => none
  | (k, c) :: rest, a => if k = a then some c else poolFind rest a

/-- Map insert into the agent pool (`c.agents[address] = client`). -/
def poolInsert (p : Pool) (a : String) (c : Option Unit) : Pool :=
  (a, c) :: p

/-- Map lookup in the registration cache (`serviceCache[id]` with its `ok` bit). -/
def cacheFind : Cache → String → Option CacheEntry
  | [], _ => none
  | (k, e) :: rest, id => if k = id then some e else cacheFind rest id

/-- Map insert into the registration cache (`serviceCache[id] = entry`). -/
def cacheInsert (c : Cache) (id : String) (e : CacheEntry) : Cache :=
  (id, e) :: c

/-- Map delete from the registration cache (`delete(serviceCache, id)`). -/
def cacheErase : Cache → String → Cache
  | [], _ => []
  | (k, e) :: rest, id =>
    if k = id then cacheErase rest id else (k, e) :: cacheErase rest id

/-- One remote call made by the code. -/
inductive Event where
  | svcRegister (agent : String) (reg : AgentServiceRegistration)
  | casWrite (agent : String) (key : String) (value : String)
  | svcDeregister (agent : String) (id : String)
  | kvDelete (agent : String) (key : String)
deriving Repr, DecidableEq

/-- Oracle for the remote side: result of each kind of remote call.
`svcRegister`/`svcDeregister`/`kvDelete` return `some msg` on error;
`kvCAS` returns `Except.error` on transport failure and `Except.ok work`
otherwise, `work = false` meaning the key already existed. -/
structure World where
  svcRegister : String → AgentServiceRegistration → Option String
  kvCAS : String → String → String → Except String Bool
  svcDeregister : String → String → Option String
  kvDelete : String → String → Option String

/-- The mutable state of the package: the agent pool (`c.agents`) and the
registration cache (`serviceCache`). -/
structure ConsulState where
  agents : Pool
  cache : Cache
deriving Repr, DecidableEq

/-- `newAgent`: returns nil for an empty address; otherwise builds a client from
the process-wide configuration (construction failure is `log.Fatal`, i.e. the
process dies, so a returned client is always live). -/
def Consul.newAgent (address : String) : Option Unit :=
  if address = "" then none else some ()

/-- The `if _, ok := c.agents[x]; !ok { c.agents[x] = c.newAgent(x) }` pattern of
`Register` (lines 99-102) and `deregister` (lines 196-199), followed by the
index `c.agents[x]`: returns the updated pool and the client found there. -/
def Consul.ensureAgent (p : Pool) (address : String) : Pool × Option Unit :=
  match poolFind p address with
  | some c => (p, c)
  | none => (poolInsert p address (Consul.newAgent address), Consul.newAgent address)

/-- `client(address)`: empty address is a usage error, logged, returning nil
without touching the pool; otherwise cached lookup / connect-and-cache. -/
def Consul.client (p : Pool) (address : String) : Pool × Option Unit :=
  if address = "" then (p, none)
  else
    match poolFind p address with
    | some c => (p, c)
    | none => (poolInsert p address (Consul.newAgent address), Consul.newAgent address)

/-- Go `strings.Split` with a single-character separator, on the character list
of the string: always returns at least one (possibly empty) piece. -/
def splitCharAux (sep : Char) : List Char → List (List Char)
  | [] => [[]]
  | c :: cs =>
    match splitCharAux sep cs with
    | [] => [[c]]
    | x :: xs => if c = sep then [] :: x :: xs else (c :: x) :: xs

/-- Go `strings.Split(s, sep)` for a one-character `sep`. -/
def goSplit (s : String) (sep : Char) : List String :=
  (splitCharAux sep s.data).map String.mk

/-- Go `strings.Contains(s, sub)` for a one-character `sub`. -/
def goContains (s : String) (c : Char) : Bool :=
  s.data.contains c

/-- Lines 156-160 of `deRegisterUpstream`: recover the agent name from the
stored registration's own identifier — `strings.Split(id, ":")[1]`, then, if it
contains `-`, `strings.Split(agent, "-")[0]`.  `none` models the out-of-range
slice index panic when the identifier has no `:`. -/
def parseAgentFromId (id : String) : Option String :=
  match (goSplit id ':')[1]? with
  | none => none
  | some a => some (if goContains a '-' then ((goSplit a '-').headD "") else a)

/-- The key `upstreams/<name>/<agent>:<port>` (lines 140 and 161). -/
def upstreamKey (name agent : String) (port : Int) : String :=
  "upstreams/" ++ name ++ "/" ++ agent ++ ":" ++ toString port

/-- The fixed upstream payload written by `registerUpstream` (line 141). -/
def upstreamValue : String :=
  "\x7b\"weight\":1, \"max_fails\":2, \"fail_timeout\":10\x7d"

/-- `registerUpstream(service)`: CAS the fixed payload under the upstream key
against a nil baseline.  Transport failure returns `(some err, false)`; a CAS
that reports the key already existed only logs at debug level and, like the
fresh-write case, returns `(none, true)`.  The emitted event records the CAS
call that was made. -/
def Consul.registerUpstream (w : World) (service : Service) :
    (Option String × Bool) × List Event :=
  match w.kvCAS service.agent (upstreamKey service.name service.agent service.port)
      upstreamValue with
  | Except.error e =>
    ((some ("Unable to CAS key " ++ upstreamKey service.name service.agent service.port
        ++ ": " ++ e), false),
     [Event.casWrite service.agent
       (upstreamKey service.name service.agent service.port) upstreamValue])
  | Except.ok _ =>
    ((none, true),
     [Event.casWrite service.agent
       (upstreamKey service.name service.agent service.port) upstreamValue])

/-- Modelled from the spec: `newCacheEntry(s, agent)` (cache file not among the
sources) builds an entry owning the catalog payload and the agent address; a
fresh entry is unmarked (creation default), `Register` marks it right after. -/
def newCacheEntry (s : AgentServiceRegistration) (agent : String) : CacheEntry :=
  { service := s, agent := agent, marked := false }

/-- Modelled from the spec: `CacheMark(id)` / `mark(id)` transitions the entry to
marked; a no-op, not an error, when `id` is absent. -/
def Consul.CacheMark : Cache → String → Cache
  | [], _ => []
  | (k, e) :: rest, id =>
    if k = id then (k, { e with marked := true }) :: Consul.CacheMark rest id
    else (k, e) :: Consul.CacheMark rest id

/-- Modelled from the spec: `isStale(id)` is true iff the entry exists and is
unmarked at sweep time; absent identifiers are not considered stale. -/
def isStale (c : Cache) (id : String) : Bool :=
  match cacheFind c id with
  | some e => !e.marked
  | none => false

/-- Modelled from the spec: `CacheIsValid(id)` — the sweep takes the no-action
branch exactly when `isStale(id)` is false. -/
def Consul.CacheIsValid (c : Cache) (id : String) : Bool :=
  !isStale c id

/-- Modelled from the spec: `CacheProcessDeregister(id)` resets the entry's mark
to unmarked for the next cycle, leaving the entry in place. -/
def Consul.CacheProcessDeregister : Cache → String → Cache
  | [], _ => []
  | (k, e) :: rest, id =>
    if k = id then (k, { e with marked := false }) :: Consul.CacheProcessDeregister rest id
    else (k, e) :: Consul.CacheProcessDeregister rest id

/-- The catalog payload `Register` builds from a `Service` (lines 106-121):
tags are only set when non-empty (the zero value is the empty list). -/
def buildRegistration (service : Service) : AgentServiceRegistration :=
  { id := service.id
    name := service.name
    port := service.port
    address := service.address
    tags := if service.tags.length > 0 then service.tags else []
    check := service.check }

/-- Outcome of one `Register` call. -/
inductive RegResult where
  | skippedCached
  | nilClientPanic
  | registerFailed (msg : String)
  | upstreamFailed (msg : String)
  | registered
deriving Repr, DecidableEq

/-- `Register(service)`, lines 92-136: skip-and-mark when the identifier is
cached; otherwise ensure a pool entry for `service.Agent` (without the empty
address guard of `client`), build the payload, call the catalog, then
`registerUpstream`, and only then insert and mark a cache entry.
`nilClientPanic` models the dereference of a stored nil client at line 123. -/
def Consul.Register (w : World) (st : ConsulState) (service : Service) :
    ConsulState × List Event × RegResult :=
  match cacheFind st.cache service.id with
  | some _ =>
    ({ st with cache := Consul.CacheMark st.cache service.id }, [],
     RegResult.skippedCached)
  | none =>
    match Consul.ensureAgent st.agents service.agent with
    | (agents, none) => ({ st with agents := agents }, [], RegResult.nilClientPanic)
    | (agents, some _) =>
      match w.svcRegister service.agent (buildRegistration service) with
      | some e =>
        ({ st with agents := agents },
         [Event.svcRegister service.agent (buildRegistration service)],
         RegResult.registerFailed
           ("Unable to register " ++ (buildRegistration service).id ++ ": " ++ e))
      | none =>
        match Consul.registerUpstream w service with
        | ((err, false), upEv) =>
          ({ st with agents := agents },
           Event.svcRegister service.agent (buildRegistration service) :: upEv,
           RegResult.upstreamFailed (err.getD ""))
        | ((_, true), upEv) =>
          ({ agents := agents
             cache := Consul.CacheMark
               (cacheInsert st.cache (buildRegistration service).id
                 (newCacheEntry (buildRegistration service) service.agent))
               (buildRegistration service).id },
           Event.svcRegister service.agent (buildRegistration service) :: upEv,
           RegResult.registered)

/-- Outcome of one `deregister` (lower-case) call. -/
inductive DeregResult where
  | nilClientPanic
  | failed (msg : String)
  | ok
deriving Repr, DecidableEq

/-- `deregister(agent, service)`, lines 195-202: ensure a pool entry for the
stored agent, then `ServiceDeregister(service.ID)` through it.  Dereferencing a
stored nil client is the panic case. -/
def Consul.deregister (w : World) (p : Pool) (agent : String)
    (service : AgentServiceRegistration) : Pool × List Event × DeregResult :=
  match Consul.ensureAgent p agent with
  | (p2, none) => (p2, [], DeregResult.nilClientPanic)
  | (p2, some _) =>
    match w.svcDeregister agent service.id with
    | some e => (p2, [Event.svcDeregister agent service.id], DeregResult.failed e)
    | none => (p2, [Event.svcDeregister agent service.id], DeregResult.ok)

/-- Outcome of one `deRegisterUpstream` call. -/
inductive UpstreamDeregResult where
  | panicOutOfRange
  | panicNilClient
  | failed (msg : String)
  | ok
deriving Repr, DecidableEq

/-- `deRegisterUpstream(service)`, lines 154-170: parse the agent out of the
stored identifier (out-of-range panic when it has no `:`), build the upstream
key, and — only if the parsed agent has a pool entry — delete the key through
that client (a stored nil client panics).  A parsed agent with no pool entry
skips the delete and reports success. -/
def Consul.deRegisterUpstream (w : World) (p : Pool)
    (service : AgentServiceRegistration) : UpstreamDeregResult × List Event :=
  match parseAgentFromId service.id with
  | none => (UpstreamDeregResult.panicOutOfRange, [])
  | some agent =>
    match poolFind p agent with
    | none => (UpstreamDeregResult.ok, [])
    | some none => (UpstreamDeregResult.panicNilClient, [])
    | some (some _) =>
      match w.kvDelete agent (upstreamKey service.name agent service.port) with
      | some e =>
        (UpstreamDeregResult.failed
          ("Unable to Delete key " ++ upstreamKey service.name agent service.port
            ++ ": " ++ e),
         [Event.kvDelete agent (upstreamKey service.name agent service.port)])
      | none =>
        (UpstreamDeregResult.ok,
         [Event.kvDelete agent (upstreamKey service.name agent service.port)])

/-- One iteration of the `Deregister` sweep loop (lines 176-192) at cache key `s`
with the entry `b` that the range produced: valid entries only get their mark
reset; stale entries are deregistered from the catalog, and on success the
upstream record is cleaned up (its failure only logged) and the entry deleted.
`none` models a panic aborting the sweep. -/
def Consul.sweepEntry (w : World) (st : ConsulState) (s : String) (b : CacheEntry) :
    Option (ConsulState × List Event) :=
  if Consul.CacheIsValid st.cache s then
    some ({ st with cache := Consul.CacheProcessDeregister st.cache s }, [])
  else
    match Consul.deregister w st.agents b.agent b.service with
    | (_, _, DeregResult.nilClientPanic) => none
    | (p, ev, DeregResult.failed _) => some ({ st with agents := p }, ev)
    | (p, ev, DeregResult.ok) =>
      match Consul.deRegisterUpstream w p b.service with
      | (UpstreamDeregResult.panicOutOfRange, _) => none
      | (UpstreamDeregResult.panicNilClient, _) => none
      | (UpstreamDeregResult.failed _, ev2) =>
        some ({ agents := p, cache := cacheErase st.cache s }, ev ++ ev2)
      | (UpstreamDeregResult.ok, ev2) =>
        some ({ agents := p, cache := cacheErase st.cache s }, ev ++ ev2)

/-- Fold of `sweepEntry` over the snapshot of the cache taken when `Deregister`
begins, accumulating emitted events; `none` as soon as an entry panics. -/
def Consul.sweepGo (w : World) :
    List (String × CacheEntry) → ConsulState → List Event →
    Option (ConsulState × List Event)
  | [], st, evs => some (st, evs)
  | (s, b) :: rest, st, evs =>
    match Consul.sweepEntry w st s b with
    | none => none
    | some (st1, ev) => Consul.sweepGo w rest st1 (evs ++ ev)

/-- `Deregister()`, lines 175-193: sweep every entry of the registration cache. -/
def Consul.Deregister (w : World) (st : ConsulState) :
    Option (ConsulState × List Event) :=
  Consul.sweepGo w st.cache st []

/-- A world in which every remote call succeeds (a fresh CAS). -/
def wOk : World where
  svcRegister := fun _ _ => none
  kvCAS := fun _ _ _ => Except.ok true
  svcDeregister := fun _ _ => none
  kvDelete := fun _ _ => none

/-- A world whose CAS reports the key already exists (no transport failure). -/
def wCasExists : World where
  svcRegister := fun _ _ => none
  kvCAS := fun _ _ _ => Except.ok false
  svcDeregister := fun _ _ => none
  kvDelete := fun _ _ => none

/-- A world in which catalog registration fails. -/
def wRegFail : World where
  svcRegister := fun _ _ => some "connection refused"
  kvCAS := fun _ _ _ => Except.ok true
  svcDeregister := fun _ _ => none
  kvDelete := fun _ _ => none

/-- A world in which catalog deregistration fails. -/
def wDeregFail : World where
  svcRegister := fun _ _ => none
  kvCAS := fun _ _ _ => Except.ok true
  svcDeregister := fun _ _ => some "connection refused"
  kvDelete := fun _ _ => none

/-- A world in which the KV delete fails. -/
def wDelFail : World where
  svcRegister := fun _ _ => none
  kvCAS := fun _ _ _ => Except.ok true
  svcDeregister := fun _ _ => none
  kvDelete := fun _ _ => some "connection refused"

/-- A concrete health check used by the example states. -/
def chk : ServiceCheck := { ttl := "30s", script := "", http := "", interval := "10s" }

/-- A concrete catalog payload whose identifier parses to agent `h1`. -/
def regA : AgentServiceRegistration :=
  { id := "web-1:h1-0", name := "web", port := 80, address := "10.0.0.1",
    tags := [], check := chk }

/-- The desired service corresponding to `regA`. -/
def svcA : Service :=
  { id := "web-1:h1-0", name := "web", agent := "h1", port := 80,
    address := "10.0.0.1", tags := [], check := chk }

/-- `svcA` with every field not in the upstream key changed. -/
def svcAvar : Service :=
  { id := "other-id", name := "web", agent := "h1", port := 80,
    address := "10.9.9.9", tags := ["extra"], check := chk }

/-- A desired service with an empty agent address. -/
def svcEmptyAgent : Service :=
  { id := "e1", name := "web", agent := "", port := 80,
    address := "10.0.0.1", tags := [], check := chk }

/-- A state whose single cache entry for `regA` is marked. -/
def stMarked : ConsulState :=
  { agents := [], cache := [("web-1:h1-0", { service := regA, agent := "h1", marked := true })] }

/-- A state whose single cache entry for `regA` is stale (unmarked). -/
def stStale : ConsulState :=
  { agents := [], cache := [("web-1:h1-0", { service := regA, agent := "h1", marked := false })] }

/-- A catalog payload whose identifier parses to agent `B`, cached under agent `A`. -/
def regB : AgentServiceRegistration :=
  { id := "x:B", name := "web", port := 80, address := "10.0.0.2",
    tags := [], check := chk }

/-- A state with one stale entry whose stored agent (`A`) differs from the agent
parsed out of its identifier (`B`); nothing is pooled for `B`. -/
def stMismatch : ConsulState :=
  { agents := [], cache := [("x:B", { service := regB, agent := "A", marked := false })] }

/-- The empty state. -/
def stEmpty : ConsulState := { agents := [], cache := [] }

/-- A catalog payload with the composite identifier of the parsing example. -/
def regC7 : AgentServiceRegistration :=
  { id := "web-1:agentA-3", name := "web", port := 80, address := "10.0.0.3",
    tags := [], check := chk }

/-! ### Association-list lemmas for the cache and the pool -/

theorem cacheKeys_mark (c : Cache) (id : String) :
    (Consul.CacheMark c id).map Prod.fst = c.map Prod.fst := by
  induction c with
  | nil => rfl
  | cons hd rest ih =>
    obtain ⟨k, e⟩ := hd
    by_cases hk : k = id <;> simp [Consul.CacheMark, hk, ih]

theorem cacheFind_unmark_self (c : Cache) (s : String) (b : CacheEntry)
    (h : cacheFind c s = some b) :
    cacheFind (Consul.CacheProcessDeregister c s) s = some { b with marked := false } := by
  induction c with
  | nil => simp [cacheFind] at h
  | cons hd rest ih =>
    obtain ⟨k, e⟩ := hd
    by_cases hk : k = s
    · simp [cacheFind, hk] at h
      simp [Consul.CacheProcessDeregister, cacheFind, hk, h]
    · simp [cacheFind, hk] at h
      simp [Consul.CacheProcessDeregister, cacheFind, hk, ih h]

theorem cacheFind_unmark_ne (c : Cache) (s t : String) (h : t ≠ s) :
    cacheFind (Consul.CacheProcessDeregister c s) t = cacheFind c t := by
  induction c with
  | nil => rfl
  | cons hd rest ih =>
    obtain ⟨k, e⟩ := hd
    by_cases hk : k = s
    · subst hk
      simp [Consul.CacheProcessDeregister, cacheFind, Ne.symm h, ih]
    · by_cases hkt : k = t <;>
        simp [Consul.CacheProcessDeregister, cacheFind, hk, hkt, h, ih]

theorem cacheFind_erase_self (c : Cache) (s : String) :
    cacheFind (cacheErase c s) s = none := by
  induction c with
  | nil => rfl
  | cons hd rest ih =>
    obtain ⟨k, e⟩ := hd
    by_cases hk : k = s <;> simp [cacheErase, cacheFind, hk, ih]

theorem cacheFind_erase_ne (c : Cache) (s t : String) (h : t ≠ s) :
    cacheFind (cacheErase c s) t = cacheFind c t := by
  induction c with
  | nil => rfl
  | cons hd rest ih =>
    obtain ⟨k, e⟩ := hd
    by_cases hk : k = s
    · subst hk
      simp [cacheErase, cacheFind, Ne.symm h, ih]
    · by_cases hkt : k = t <;> simp [cacheErase, cacheFind, hk, hkt, h, ih]

theorem cacheFind_of_mem_nodup (c : Cache) (s : String) (b : CacheEntry)
    (hmem : (s, b) ∈ c) (hnodup : (c.map Prod.fst).Nodup) :
    cacheFind c s = some b := by
  induction c with
  | nil => simp at hmem
  | cons hd rest ih =>
    obtain ⟨k, e⟩ := hd
    rcases List.mem_cons.mp hmem with heq | htl
    · injection heq with h1 h2
      subst h1
      subst h2
      simp [cacheFind]
    · rw [List.map_cons] at hnodup
      obtain ⟨hknotin, hrest⟩ := List.nodup_cons.mp hnodup
      have hs : s ∈ rest.map Prod.fst := List.mem_map.mpr ⟨(s, b), htl, rfl⟩
      have hk : k ≠ s := fun hh => hknotin (hh ▸ hs)
      simp [cacheFind, hk]
      exact ih htl hrest

theorem CacheIsValid_of_find (c : Cache) (s : String) (b : CacheEntry)
    (h : cacheFind c s = some b) :
    Consul.CacheIsValid c s = b.marked := by
  simp [Consul.CacheIsValid, isStale, h]

/-! ### Characterisation of `deregister` and the sweep fold -/

theorem deregister_cases (w : World) (p : Pool) (a : String)
    (sv : AgentServiceRegistration) (p2 : Pool) (ev : List Event) (res : DeregResult)
    (h : Consul.deregister w p a sv = (p2, ev, res)) :
    (res = DeregResult.nilClientPanic ∧ ev = []) ∨
    (ev = [Event.svcDeregister a sv.id] ∧
      ((∃ e, w.svcDeregister a sv.id = some e ∧ res = DeregResult.failed e) ∨
       (w.svcDeregister a sv.id = none ∧ res = DeregResult.ok))) := by
  unfold Consul.deregister at h
  rcases h1 : Consul.ensureAgent p a with ⟨q, cl⟩
  rw [h1] at h
  cases cl with
  | none =>
    obtain ⟨-, h3⟩ := Prod.mk.injEq .. ▸ h
    obtain ⟨h4, h5⟩ := Prod.mk.injEq .. ▸ h3
    exact Or.inl ⟨h5.symm, h4.symm⟩
  | some u =>
    cases h2 : w.svcDeregister a sv.id with
    | some e =>
      rw [h2] at h
      obtain ⟨-, h3⟩ := Prod.mk.injEq .. ▸ h
      obtain ⟨h4, h5⟩ := Prod.mk.injEq .. ▸ h3
      exact Or.inr ⟨h4.symm, Or.inl ⟨e, rfl, h5.symm⟩⟩
    | none =>
      rw [h2] at h
      obtain ⟨-, h3⟩ := Prod.mk.injEq .. ▸ h
      obtain ⟨h4, h5⟩ := Prod.mk.injEq .. ▸ h3
      exact Or.inr ⟨h4.symm, Or.inr ⟨rfl, h5.symm⟩⟩

theorem sweepEntry_find_ne (w : World) (st : ConsulState) (s t : String)
    (b : CacheEntry) (st1 : ConsulState) (ev : List Event) (h : t ≠ s)
    (hse : Consul.sweepEntry w st s b = some (st1, ev)) :
    cacheFind st1.cache t = cacheFind st.cache t := by
  unfold Consul.sweepEntry at hse
  by_cases hv : Consul.CacheIsValid st.cache s
  · rw [if_pos hv] at hse
    have h3 := Option.some.inj hse
    have h4 : ({ st with cache := Consul.CacheProcessDeregister st.cache s } : ConsulState) = st1 :=
      congrArg Prod.fst h3
    rw [← h4]
    exact cacheFind_unmark_ne _ _ _ h
  · rw [if_neg hv] at hse
    rcases hd : Consul.deregister w st.agents b.agent b.service with ⟨p, dev, res⟩
    rw [hd] at hse
    cases res with
    | nilClientPanic => exact absurd hse (by simp)
    | failed e =>
      have h3 := Option.some.inj hse
      have h4 : ({ st with agents := p } : ConsulState) = st1 := congrArg Prod.fst h3
      rw [← h4]
    | ok =>
      dsimp only at hse
      rcases hu : Consul.deRegisterUpstream w p b.service with ⟨ur, uev⟩
      rw [hu] at hse
      cases ur with
      | panicOutOfRange => exact absurd hse (by simp)
      | panicNilClient => exact absurd hse (by simp)
      | failed e2 =>
        have h3 := Option.some.inj hse
        have h4 : ({ agents := p, cache := cacheErase st.cache s } : ConsulState) = st1 :=
          congrArg Prod.fst h3
        rw [← h4]
        exact cacheFind_erase_ne _ _ _ h
      | ok =>
        have h3 := Option.some.inj hse
        have h4 : ({ agents := p, cache := cacheErase st.cache s } : ConsulState) = st1 :=
          congrArg Prod.fst h3
        rw [← h4]
        exact cacheFind_erase_ne _ _ _ h

theorem sweepGo_events (w : World) :
    ∀ (l : List (String × CacheEntry)) (st : ConsulState) (evs : List Event)
      (st' : ConsulState) (evs' : List Event),
      Consul.sweepGo w l st evs = some (st', evs') →
      ∃ tail, evs' = evs ++ tail := by
  intro l
  induction l with
  | nil =>
    intro st evs st' evs' h
    simp [Consul.sweepGo] at h
    exact ⟨[], by simp [h.2]⟩
  | cons hd tl ih =>
    intro st evs st' evs' h
    obtain ⟨s, b⟩ := hd
    unfold Consul.sweepGo at h
    cases hse : Consul.sweepEntry w st s b with
    | none => rw [hse] at h; exact absurd h (by simp)
    | some r =>
      rw [hse] at h
      obtain ⟨st1, ev⟩ := r
      obtain ⟨tail, ht⟩ := ih st1 (evs ++ ev) st' evs' h
      exact ⟨ev ++ tail, by simp [ht]⟩

theorem sweepGo_preserve (w : World) :
    ∀ (l : List (String × CacheEntry)) (st : ConsulState) (evs : List Event)
      (st' : ConsulState) (evs' : List Event) (t : String),
      t ∉ l.map Prod.fst →
      Consul.sweepGo w l st evs = some (st', evs') →
      cacheFind st'.cache t = cacheFind st.cache t := by
  intro l
  induction l with
  | nil =>
    intro st evs st' evs' t _ h
    simp [Consul.sweepGo] at h
    rw [h.1]
  | cons hd tl ih =>
    intro st evs st' evs' t hnot h
    obtain ⟨s, b⟩ := hd
    rw [List.map_cons, List.mem_cons] at hnot
    push_neg at hnot
    unfold Consul.sweepGo at h
    cases hse : Consul.sweepEntry w st s b with
    | none => rw [hse] at h; exact absurd h (by simp)
    | some r =>
      rw [hse] at h
      obtain ⟨st1, ev⟩ := r
      calc cacheFind st'.cache t = cacheFind st1.cache t := ih st1 (evs ++ ev) st' evs' t hnot.2 h
        _ = cacheFind st.cache t := sweepEntry_find_ne w st s t b st1 ev hnot.1 hse

theorem sweepGo_main (w : World) :
    ∀ (l : List (String × CacheEntry)) (st : ConsulState) (evs0 : List Event)
      (st' : ConsulState) (evs' : List Event) (s : String) (b : CacheEntry),
      (l.map Prod.fst).Nodup →
      (s, b) ∈ l →
      cacheFind st.cache s = some b →
      Consul.sweepGo w l st evs0 = some (st', evs') →
      (b.marked = true → cacheFind st'.cache s = some { b with marked := false }) ∧
      (b.marked = false → Event.svcDeregister b.agent b.service.id ∈ evs') ∧
      (b.marked = false → w.svcDeregister b.agent b.service.id = none →
        cacheFind st'.cache s = none) ∧
      (b.marked = false → (∃ e, w.svcDeregister b.agent b.service.id = some e) →
        cacheFind st'.cache s = some b) := by
  intro l
  induction l with
  | nil =>
    intro st evs0 st' evs' s b _ hmem _ _
    simp at hmem
  | cons hd tl ih =>
    intro st evs0 st' evs' s b hnodup hmem hfind hrun
    obtain ⟨k, e⟩ := hd
    rw [List.map_cons] at hnodup
    obtain ⟨hknotin, htlnodup⟩ := List.nodup_cons.mp hnodup
    unfold Consul.sweepGo at hrun
    cases hse : Consul.sweepEntry w st k e with
    | none => rw [hse] at hrun; exact absurd hrun (by simp)
    | some r =>
      rw [hse] at hrun
      obtain ⟨st1, ev⟩ := r
      rcases List.mem_cons.mp hmem with heq | htl
      · injection heq with h1 h2
        subst h1
        subst h2
        have hsnotin : s ∉ tl.map Prod.fst := hknotin
        have hvalid : Consul.CacheIsValid st.cache s = b.marked :=
          CacheIsValid_of_find _ _ _ hfind
        unfold Consul.sweepEntry at hse
        rw [hvalid] at hse
        cases hb : b.marked with
        | true =>
          rw [hb] at hse
          simp only [if_true] at hse
          have h3 := Option.some.inj hse
          have hst1 : ({ st with cache := Consul.CacheProcessDeregister st.cache s } :
              ConsulState) = st1 := congrArg Prod.fst h3
          refine ⟨fun _ => ?_, fun hmf => ?_, fun hmf _ => ?_, fun hmf _ => ?_⟩
          · have hpres := sweepGo_preserve w tl st1 (evs0 ++ ev) st' evs' s hsnotin hrun
            rw [hpres, ← hst1]
            exact cacheFind_unmark_self _ _ _ hfind
          all_goals exact Bool.noConfusion hmf
        | false =>
          rw [hb] at hse
          simp only [Bool.false_eq_true, if_false] at hse
          rcases hd2 : Consul.deregister w st.agents b.agent b.service with ⟨p, dev, res⟩
          rw [hd2] at hse
          have hfacts := deregister_cases w st.agents b.agent b.service p dev res hd2
          cases res with
          | nilClientPanic => exact absurd hse (by simp)
          | failed err =>
            dsimp only at hse
            have h3 := Option.some.inj hse
            have hst1 : ({ st with agents := p } : ConsulState) = st1 :=
              congrArg Prod.fst h3
            have hev : dev = ev := congrArg Prod.snd h3
            have hdev : dev = [Event.svcDeregister b.agent b.service.id] ∧
                w.svcDeregister b.agent b.service.id = some err := by
              rcases hfacts with ⟨hres, -⟩ | ⟨hdev, hor⟩
              · exact absurd hres (by simp)
              · rcases hor with ⟨e2, hwe, hres⟩ | ⟨hwn, hres⟩
                · injection hres with he2
                  exact ⟨hdev, he2 ▸ hwe⟩
                · exact absurd hres (by simp)
            obtain ⟨tail, htail⟩ := sweepGo_events w tl st1 (evs0 ++ ev) st' evs' hrun
            have hpres := sweepGo_preserve w tl st1 (evs0 ++ ev) st' evs' s hsnotin hrun
            refine ⟨fun hmt => ?_, fun _ => ?_, fun _ hw => ?_, fun _ _ => ?_⟩
            · exact Bool.noConfusion hmt
            · rw [htail, ← hev, hdev.1]
              simp
            · rw [hdev.2] at hw; exact Option.noConfusion hw
            · rw [hpres, ← hst1]
              exact hfind
          | ok =>
            dsimp only at hse
            have hdev : dev = [Event.svcDeregister b.agent b.service.id] ∧
                w.svcDeregister b.agent b.service.id = none := by
              rcases hfacts with ⟨hres, -⟩ | ⟨hdev, hor⟩
              · exact absurd hres (by simp)
              · rcases hor with ⟨e2, hwe, hres⟩ | ⟨hwn, hres⟩
                · exact absurd hres (by simp)
                · exact ⟨hdev, hwn⟩
            rcases hu : Consul.deRegisterUpstream w p b.service with ⟨ur, uev⟩
            rw [hu] at hse
            cases ur with
            | panicOutOfRange => exact absurd hse (by simp)
            | panicNilClient => exact absurd hse (by simp)
            | failed e2 =>
              have h3 := Option.some.inj hse
              have hst1 : ({ agents := p, cache := cacheErase st.cache s } :
                  ConsulState) = st1 := congrArg Prod.fst h3
              have hev : dev ++ uev = ev := congrArg Prod.snd h3
              obtain ⟨tail, htail⟩ := sweepGo_events w tl st1 (evs0 ++ ev) st' evs' hrun
              have hpres := sweepGo_preserve w tl st1 (evs0 ++ ev) st' evs' s hsnotin hrun
              refine ⟨fun hmt => ?_, fun _ => ?_, fun _ _ => ?_, fun _ hw => ?_⟩
              · exact Bool.noConfusion hmt
              · rw [htail, ← hev, hdev.1]
                simp
              · rw [hpres, ← hst1]
                exact cacheFind_erase_self _ _
              · obtain ⟨e3, hwe⟩ := hw
                rw [hdev.2] at hwe; exact Option.noConfusion hwe
            | ok =>
              have h3 := Option.some.inj hse
              have hst1 : ({ agents := p, cache := cacheErase st.cache s } :
                  ConsulState) = st1 := congrArg Prod.fst h3
              have hev : dev ++ uev = ev := congrArg Prod.snd h3
              obtain ⟨tail, htail⟩ := sweepGo_events w tl st1 (evs0 ++ ev) st' evs' hrun
              have hpres := sweepGo_preserve w tl st1 (evs0 ++ ev) st' evs' s hsnotin hrun
              refine ⟨fun hmt => ?_, fun _ => ?_, fun _ _ => ?_, fun _ hw => ?_⟩
              · exact Bool.noConfusion hmt
              · rw [htail, ← hev, hdev.1]
                simp
              · rw [hpres, ← hst1]
                exact cacheFind_erase_self _ _
              · obtain ⟨e3, hwe⟩ := hw
                rw [hdev.2] at hwe; exact Option.noConfusion hwe
      · have hs : s ∈ tl.map Prod.fst := List.mem_map.mpr ⟨(s, b), htl, rfl⟩
        have hk2 : k ≠ s := fun hh => hknotin (hh ▸ hs)
        have hfind1 : cacheFind st1.cache s = some b := by
          rw [sweepEntry_find_ne w st k s e st1 ev (Ne.symm hk2) hse]
          exact hfind
        exact ih st1 (evs0 ++ ev) st' evs' s b htlnodup htl hfind1 hrun

/-! ### Lemmas about the Go split used by the identifier parsing -/

theorem splitCharAux_cons (sep c : Char) (cs : List Char) :
    splitCharAux sep (c :: cs) =
      match splitCharAux sep cs with
      | [] => [[c]]
      | x :: xs => if c = sep then [] :: x :: xs else (c :: x) :: xs := rfl

theorem splitCharAux_length (sep : Char) :
    ∀ cs : List Char, (splitCharAux sep cs).length = cs.count sep + 1 := by
  intro cs
  induction cs with
  | nil => simp [splitCharAux]
  | cons c cs ih =>
    rw [splitCharAux_cons]
    cases hr : splitCharAux sep cs with
    | nil => rw [hr] at ih; simp at ih
    | cons x xs =>
      rw [hr] at ih
      by_cases hc : c = sep
      · subst hc
        have hcnt : (c :: cs).count c = cs.count c + 1 := by
          simp [List.count_cons]
        simp [hcnt] at ih ⊢
        omega
      · have hcnt : (c :: cs).count sep = cs.count sep := by
          simp [List.count_cons, hc]
        simp only [if_neg hc, List.length_cons, hcnt]
        simp at ih
        omega

theorem splitCharAux_of_not_mem (sep : Char) :
    ∀ cs : List Char, sep ∉ cs → splitCharAux sep cs = [cs] := by
  intro cs
  induction cs with
  | nil => intro _; rfl
  | cons c cs ih =>
    intro h
    rw [List.mem_cons] at h
    push_neg at h
    rw [splitCharAux_cons, ih h.2]
    simp only []
    rw [if_neg (fun hh => h.1 hh.symm)]

theorem parseAgentFromId_none_iff (id : String) :
    parseAgentFromId id = none ↔ ':' ∉ id.data := by
  constructor
  · intro h
    by_contra hmem
    have hcount : 0 < id.data.count ':' := List.count_pos_iff.mpr hmem
    have hlen : 1 < ((splitCharAux ':' id.data).map String.mk).length := by
      rw [List.length_map, splitCharAux_length]
      omega
    unfold parseAgentFromId goSplit at h
    rw [List.getElem?_eq_getElem hlen] at h
    exact Option.noConfusion h
  · intro hmem
    unfold parseAgentFromId goSplit
    rw [splitCharAux_of_not_mem ':' id.data hmem]
    rfl

/-! ### Characterisation of `registerUpstream` -/

theorem registerUpstream_cases (w : World) (service : Service) :
    (∃ e, w.kvCAS service.agent
        (upstreamKey service.name service.agent service.port) upstreamValue =
        Except.error e ∧
      (Consul.registerUpstream w service).1 =
        (some ("Unable to CAS key "
          ++ upstreamKey service.name service.agent service.port ++ ": " ++ e), false)) ∨
    (∃ worked, w.kvCAS service.agent
        (upstreamKey service.name service.agent service.port) upstreamValue =
        Except.ok worked ∧
      (Consul.registerUpstream w service).1 = (none, true)) := by
  cases hc : w.kvCAS service.agent
      (upstreamKey service.name service.agent service.port) upstreamValue with
  | error e =>
    refine Or.inl ⟨e, rfl, ?_⟩
    unfold Consul.registerUpstream
    rw [hc]
  | ok v =>
    refine Or.inr ⟨v, rfl, ?_⟩
    unfold Consul.registerUpstream
    rw [hc]

theorem registerUpstream_events (w : World) (service : Service) :
    (Consul.registerUpstream w service).2 =
      [Event.casWrite service.agent
        (upstreamKey service.name service.agent service.port) upstreamValue] := by
  unfold Consul.registerUpstream
  cases hc : w.kvCAS service.agent
      (upstreamKey service.name service.agent service.port) upstreamValue <;> rfl

/-! ### The claims -/

/-- C1: mark-and-sweep correctness of the `Deregister` sweep — for every entry in
the registration cache at the start of a sweep that completes, a marked entry
survives the sweep with only its mark reset to unmarked, while an unmarked entry
has a catalog deregistration issued for it and, when that call succeeds, is
removed from the cache. -/
theorem C1_mark_and_sweep (w : World) (st st' : ConsulState) (evs : List Event)
    (hnodup : (st.cache.map Prod.fst).Nodup)
    (hrun : Consul.Deregister w st = some (st', evs))
    (s : String) (b : CacheEntry) (hmem : (s, b) ∈ st.cache) :
    (b.marked = true → cacheFind st'.cache s = some { b with marked := false }) ∧
    (b.marked = false →
      Event.svcDeregister b.agent b.service.id ∈ evs ∧
      (w.svcDeregister b.agent b.service.id = none → cacheFind st'.cache s = none)) := by
  have hfind := cacheFind_of_mem_nodup st.cache s b hmem hnodup
  have hm := sweepGo_main w st.cache st [] st' evs s b hnodup hmem hfind hrun
  exact ⟨hm.1, fun hmf => ⟨hm.2.1 hmf, fun hw => hm.2.2.1 hmf hw⟩⟩

theorem C1_witness :
    cacheFind
      (ConsulState.mk [] [("web-1:h1-0", CacheEntry.mk regA "h1" false)]).cache
      "web-1:h1-0" = some (CacheEntry.mk regA "h1" false) := by
  have h := C1_mark_and_sweep wOk stMarked
      (ConsulState.mk [] [("web-1:h1-0", CacheEntry.mk regA "h1" false)]) []
      (by decide) (by decide) "web-1:h1-0" (CacheEntry.mk regA "h1" true) (by decide)
  exact h.1 rfl

/-- C2: idempotent registration — a `Register` call whose identifier is already
cached performs no remote call and creates no cache entry: it returns the
skip-and-mark state, and marking preserves the cache's key list. -/
theorem C2_idempotent_registration (w : World) (st : ConsulState) (service : Service)
    (e : CacheEntry) (h : cacheFind st.cache service.id = some e) :
    Consul.Register w st service =
      ({ st with cache := Consul.CacheMark st.cache service.id }, [],
        RegResult.skippedCached) ∧
    (Consul.CacheMark st.cache service.id).map Prod.fst = st.cache.map Prod.fst := by
  constructor
  · unfold Consul.Register
    rw [h]
  · exact cacheKeys_mark st.cache service.id

theorem C2_witness :
    (Consul.Register wOk stMarked svcA).2.2 = RegResult.skippedCached := by
  have h := C2_idempotent_registration wOk stMarked svcA
      (CacheEntry.mk regA "h1" true) (by decide)
  rw [h.1]

/-- C3: registration is atomic with respect to the cache — for an uncached
identifier, any outcome other than full success leaves the cache exactly as it
was, and a `registered` outcome implies the catalog call succeeded, the CAS
call returned without transport error, and the new cache state is exactly the
marked insertion of the built payload. -/
theorem C3_atomic_registration (w : World) (st : ConsulState) (service : Service)
    (h : cacheFind st.cache service.id = none) :
    ((Consul.Register w st service).2.2 ≠ RegResult.registered →
      (Consul.Register w st service).1.cache = st.cache) ∧
    ((Consul.Register w st service).2.2 = RegResult.registered →
      w.svcRegister service.agent (buildRegistration service) = none ∧
      (∃ worked, w.kvCAS service.agent
          (upstreamKey service.name service.agent service.port) upstreamValue =
          Except.ok worked) ∧
      (Consul.Register w st service).1.cache =
        Consul.CacheMark
          (cacheInsert st.cache (buildRegistration service).id
            (newCacheEntry (buildRegistration service) service.agent))
          (buildRegistration service).id) := by
  unfold Consul.Register
  rw [h]
  dsimp only
  rcases hea : Consul.ensureAgent st.agents service.agent with ⟨agents, cl⟩
  cases cl with
  | none =>
    dsimp only
    exact ⟨fun _ => rfl, fun hr => absurd hr (by simp)⟩
  | some u =>
    dsimp only
    cases hsr : w.svcRegister service.agent (buildRegistration service) with
    | some e =>
      dsimp only
      exact ⟨fun _ => rfl, fun hr => absurd hr (by simp)⟩
    | none =>
      dsimp only
      rcases hru : Consul.registerUpstream w service with ⟨⟨err, bres⟩, upEv⟩
      cases bres with
      | false =>
        dsimp only
        exact ⟨fun _ => rfl, fun hr => absurd hr (by simp)⟩
      | true =>
        dsimp only
        refine ⟨fun hne => absurd rfl hne, fun _ => ⟨rfl, ?_, rfl⟩⟩
        rcases registerUpstream_cases w service with ⟨e, hc, h1⟩ | ⟨v, hc, h1⟩
        · rw [hru] at h1
          have := congrArg Prod.snd h1
          exact absurd this (by simp)
        · exact ⟨v, hc⟩

theorem C3_witness :
    (Consul.Register wRegFail stEmpty svcA).1.cache = stEmpty.cache := by
  have h := C3_atomic_registration wRegFail stEmpty svcA (by decide)
  exact h.1 (by decide)

/-- C4: CAS-exists is not an error — when the CAS against a nil baseline reports
the key already existed (`ok false`), `registerUpstream` returns `(nil, true)`,
and a non-nil error is returned only when the CAS call itself failed at the
transport level. -/
theorem C4_cas_exists_not_error (w : World) (service : Service) :
    (w.kvCAS service.agent (upstreamKey service.name service.agent service.port)
        upstreamValue = Except.ok false →
      (Consul.registerUpstream w service).1 = (none, true)) ∧
    (∀ msg, (Consul.registerUpstream w service).1.1 = some msg →
      ∃ e, w.kvCAS service.agent
        (upstreamKey service.name service.agent service.port) upstreamValue =
        Except.error e) := by
  constructor
  · intro h
    unfold Consul.registerUpstream
    rw [h]
  · intro msg hmsg
    rcases registerUpstream_cases w service with ⟨e, hc, h1⟩ | ⟨v, hc, h1⟩
    · exact ⟨e, hc⟩
    · rw [h1] at hmsg
      exact absurd hmsg (by simp)

theorem C4_witness : (Consul.registerUpstream wCasExists svcA).1 = (none, true) :=
  (C4_cas_exists_not_error wCasExists svcA).1 rfl

/-- C5: deregistration failure retains the cache entry — a stale entry whose
catalog deregister call errors is still present, unchanged, after a completed
sweep, and processing such an entry emits exactly the catalog deregister call
and no backend key deletion. -/
theorem C5_dereg_failure_retains_entry (w : World) (st st' : ConsulState)
    (evs : List Event) (hnodup : (st.cache.map Prod.fst).Nodup)
    (hrun : Consul.Deregister w st = some (st', evs))
    (s : String) (b : CacheEntry) (hmem : (s, b) ∈ st.cache)
    (hstale : b.marked = false) (e : String)
    (hfail : w.svcDeregister b.agent b.service.id = some e) :
    cacheFind st'.cache s = some b ∧
    ∀ (st0 : ConsulState) (r : ConsulState × List Event),
      cacheFind st0.cache s = some b →
      Consul.sweepEntry w st0 s b = some r →
      r.2 = [Event.svcDeregister b.agent b.service.id] := by
  constructor
  · have hfind := cacheFind_of_mem_nodup st.cache s b hmem hnodup
    exact (sweepGo_main w st.cache st [] st' evs s b hnodup hmem hfind hrun).2.2.2
      hstale ⟨e, hfail⟩
  · intro st0 r hfind0 hse
    have hvalid : Consul.CacheIsValid st0.cache s = b.marked :=
      CacheIsValid_of_find _ _ _ hfind0
    unfold Consul.sweepEntry at hse
    rw [hvalid, hstale] at hse
    simp only [Bool.false_eq_true, if_false] at hse
    rcases hd2 : Consul.deregister w st0.agents b.agent b.service with ⟨p, dev, res⟩
    rw [hd2] at hse
    have hfacts := deregister_cases w st0.agents b.agent b.service p dev res hd2
    cases res with
    | nilClientPanic => exact absurd hse (by simp)
    | failed err =>
      dsimp only at hse
      have h3 := Option.some.inj hse
      have hev : dev = r.2 := congrArg Prod.snd h3
      rcases hfacts with ⟨hres, -⟩ | ⟨hdev, -⟩
      · exact absurd hres (by simp)
      · rw [← hev, hdev]
    | ok =>
      rcases hfacts with ⟨hres, -⟩ | ⟨-, hor⟩
      · exact absurd hres (by simp)
      · rcases hor with ⟨e2, hwe, hres⟩ | ⟨hwn, -⟩
        · exact absurd hres (by simp)
        · rw [hfail] at hwn
          exact Option.noConfusion hwn

theorem C5_witness :
    cacheFind stStale.cache "web-1:h1-0" = some (CacheEntry.mk regA "h1" false) := by
  have h := C5_dereg_failure_retains_entry wDeregFail stStale
      (ConsulState.mk [("h1", some ())] stStale.cache)
      [Event.svcDeregister "h1" "web-1:h1-0"]
      (by decide) (by decide) "web-1:h1-0" (CacheEntry.mk regA "h1" false)
      (by decide) rfl "connection refused" rfl
  exact h.1

/-- C6 counterexample: a stale entry whose catalog deregistration succeeds but
whose identifier parses to an agent (`B`) with no pooled connection is removed
from the cache without any backend key deletion — the sweep's only emitted call
is the catalog deregister, and the record's key `upstreams/web/B:80` is never
deleted, contradicting the claim that `deRegisterUpstream` deletes the key for
every such entry. -/
theorem C6_counterexample :
    Consul.Deregister wOk stMismatch =
      some (ConsulState.mk [("A", some ())] [], [Event.svcDeregister "A" "x:B"]) ∧
    Event.kvDelete "B" (upstreamKey "web" "B" 80) ∉ [Event.svcDeregister "A" "x:B"] := by
  constructor
  · decide
  · decide

/-- C6 (amended): for every stale cache entry whose catalog deregistration
succeeds, the sweep removes the entry from the cache even if the backend
deletion fails, and `deRegisterUpstream` deletes exactly the key
`upstreams/<name>/<agent>:<port>` of the stored registration provided the agent
parsed from the stored identifier has a live pooled connection (otherwise the
delete is skipped). -/
theorem C6_upstream_cleanup (w : World) (st st' : ConsulState) (evs : List Event)
    (hnodup : (st.cache.map Prod.fst).Nodup)
    (hrun : Consul.Deregister w st = some (st', evs))
    (s : String) (b : CacheEntry) (hmem : (s, b) ∈ st.cache)
    (hstale : b.marked = false)
    (hok : w.svcDeregister b.agent b.service.id = none) :
    cacheFind st'.cache s = none ∧
    ∀ (p : Pool) (a : String), parseAgentFromId b.service.id = some a →
      poolFind p a = some (some ()) →
      (Consul.deRegisterUpstream w p b.service).2 =
        [Event.kvDelete a (upstreamKey b.service.name a b.service.port)] := by
  constructor
  · have hfind := cacheFind_of_mem_nodup st.cache s b hmem hnodup
    exact (sweepGo_main w st.cache st [] st' evs s b hnodup hmem hfind hrun).2.2.1
      hstale hok
  · intro p a hparse hpool
    unfold Consul.deRegisterUpstream
    rw [hparse]
    dsimp only
    rw [hpool]
    dsimp only
    cases hkd : w.kvDelete a (upstreamKey b.service.name a b.service.port) <;> rfl

theorem C6_witness :
    cacheFind (ConsulState.mk [("h1", some ())] []).cache "web-1:h1-0" = none := by
  have h := C6_upstream_cleanup wDelFail stStale
      (ConsulState.mk [("h1", some ())] [])
      [Event.svcDeregister "h1" "web-1:h1-0",
       Event.kvDelete "h1" (upstreamKey "web" "h1" 80)]
      (by decide) (by decide) "web-1:h1-0" (CacheEntry.mk regA "h1" false)
      (by decide) rfl rfl
  exact h.1

/-- C7: agent identifier parsing at deregistration — the backend agent is
recovered from the stored registration's own identifier by splitting on `:`
and taking the second component, then splitting on `-` and taking the first
part; for the composite identifier `web-1:agentA-3` the parsed agent is
`agentA`, and `deRegisterUpstream` deletes the key built from that agent. -/
theorem C7_agent_parsing (w : World) (p : Pool) (sv : AgentServiceRegistration)
    (hid : sv.id = "web-1:agentA-3")
    (hpool : poolFind p "agentA" = some (some ()))
    (hdel : w.kvDelete "agentA" (upstreamKey sv.name "agentA" sv.port) = none) :
    parseAgentFromId sv.id = some "agentA" ∧
    Consul.deRegisterUpstream w p sv =
      (UpstreamDeregResult.ok,
        [Event.kvDelete "agentA" (upstreamKey sv.name "agentA" sv.port)]) := by
  have hparse : parseAgentFromId "web-1:agentA-3" = some "agentA" := by decide
  constructor
  · rw [hid]
    exact hparse
  · unfold Consul.deRegisterUpstream
    rw [hid, hparse]
    dsimp only
    rw [hpool]
    dsimp only
    rw [hdel]

theorem C7_witness :
    Consul.deRegisterUpstream wOk [("agentA", some ())] regC7 =
      (UpstreamDeregResult.ok,
        [Event.kvDelete "agentA" (upstreamKey regC7.name "agentA" regC7.port)]) := by
  have h := C7_agent_parsing wOk [("agentA", some ())] regC7 rfl (by decide) rfl
  exact h.2

/-- C8 counterexample: the CAS value actually written contains a space after
each comma, so it differs as a byte string from the claimed value
`{"weight":1,"max_fails":2,"fail_timeout":10}` (braces written as characters
here), even though key and value shape otherwise match. -/
theorem C8_counterexample :
    (Consul.registerUpstream wOk svcA).2 =
      [Event.casWrite "h1" (upstreamKey "web" "h1" 80) upstreamValue] ∧
    upstreamValue ≠ "\x7b\"weight\":1,\"max_fails\":2,\"fail_timeout\":10\x7d" := by
  constructor
  · decide
  · decide

/-- C8 (amended): for every service reaching the upsert step, `registerUpstream`
performs exactly one CAS, of the key `upstreams/<name>/<agent>:<port>` computed
from the service's name, agent and port, with the fixed value
`{"weight":1, "max_fails":2, "fail_timeout":10}` (spaces after the commas as in
the source literal), independent of every other field of the service. -/
theorem C8_record_format (w : World) (service : Service) :
    (Consul.registerUpstream w service).2 =
      [Event.casWrite service.agent
        ("upstreams/" ++ service.name ++ "/" ++ service.agent ++ ":"
          ++ toString service.port)
        "\x7b\"weight\":1, \"max_fails\":2, \"fail_timeout\":10\x7d"] ∧
    (∀ s1 s2 : Service, s1.name = s2.name → s1.agent = s2.agent → s1.port = s2.port →
      (Consul.registerUpstream w s1).2 = (Consul.registerUpstream w s2).2) := by
  constructor
  · rw [registerUpstream_events]
    rfl
  · intro s1 s2 h1 h2 h3
    rw [registerUpstream_events, registerUpstream_events, h1, h2, h3]

theorem C8_witness :
    (Consul.registerUpstream wOk svcA).2 = (Consul.registerUpstream wOk svcAvar).2 :=
  (C8_record_format wOk svcA).2 svcA svcAvar rfl rfl rfl

/-- C9: `deRegisterUpstream` is partial in the stored identifier — it hits the
out-of-range index panic on `Split(id, ":")[1]` exactly when the stored
registration's identifier contains no `:` character, so the sweep's backend
cleanup is safe only under the precondition that every cached identifier
contains a `:`. -/
theorem C9_parse_partiality (w : World) (p : Pool) (sv : AgentServiceRegistration) :
    (Consul.deRegisterUpstream w p sv).1 = UpstreamDeregResult.panicOutOfRange ↔
      ':' ∉ sv.id.data := by
  rw [← parseAgentFromId_none_iff]
  unfold Consul.deRegisterUpstream
  cases hp : parseAgentFromId sv.id with
  | none => simp
  | some a =>
    dsimp only
    cases hpf : poolFind p a with
    | none => simp
    | some cl =>
      cases cl with
      | none => simp
      | some u =>
        cases hkd : w.kvDelete a (upstreamKey sv.name a sv.port) <;> simp

/-- C10: `Register` bypasses the empty-address guard of `client` — for a service
with an empty agent address and an uncached identifier, it stores the nil
client returned by `newAgent("")` in the pool and then dereferences it for the
catalog call (a nil-pointer fault), whereas `client` returns nil for the empty
address without proceeding. -/
theorem C10_empty_agent_nil_deref (w : World) (st : ConsulState) (service : Service)
    (hagent : service.agent = "")
    (hnc : cacheFind st.cache service.id = none)
    (hpool : poolFind st.agents "" = none) :
    (Consul.Register w st service).2.2 = RegResult.nilClientPanic ∧
    poolFind (Consul.Register w st service).1.agents "" = some none ∧
    Consul.client st.agents "" = (st.agents, none) := by
  have hna : Consul.newAgent "" = none := by simp [Consul.newAgent]
  have hea : Consul.ensureAgent st.agents "" = (poolInsert st.agents "" none, none) := by
    unfold Consul.ensureAgent
    rw [hpool]
    dsimp only
    rw [hna]
  have hreg : Consul.Register w st service =
      ({ st with agents := poolInsert st.agents "" none }, [],
        RegResult.nilClientPanic) := by
    unfold Consul.Register
    rw [hnc]
    dsimp only
    rw [hagent, hea]
  refine ⟨by rw [hreg], ?_, ?_⟩
  · rw [hreg]
    simp [poolInsert, poolFind]
  · unfold Consul.client
    rw [if_pos rfl]

theorem C10_witness :
    (Consul.Register wOk stEmpty svcEmptyAgent).2.2 = RegResult.nilClientPanic := by
  have h := C10_empty_agent_nil_deref wOk stEmpty svcEmptyAgent rfl rfl rfl
  exact h.1
